import Mathlib

/-!
Verification development for the resumable video ingestion and curation
pipeline (source files src/main.py and src/processing.py).  The Python
source is shallowly embedded: pure string manipulation is translated to
structurally recursive functions over character lists, durations are
rationals, the mutable dedup set and the progress files become explicit
state threaded through the step functions, and the external world seen by
one candidate video (probe result, watermark verdict, backend success,
hash result, injected exceptions) is a per-candidate environment record.
-/

namespace YL

/-! ## String helpers
Embeddings of the Python string operations used by the pipeline, written
as structural recursion over the character list of a string so that every
definition evaluates inside the kernel. -/

/-- Embedding of the Python expression s.split(sep) for a one-character
separator: splits at every occurrence, keeping empty segments. -/
def splitOnCharAux (sep : Char) : List Char → List Char → List (List Char)
  | [], acc => [acc.reverse]
  | c :: cs, acc =>
      if c = sep then acc.reverse :: splitOnCharAux sep cs []
      else splitOnCharAux sep cs (c :: acc)

/-- Splits a character list at every occurrence of sep, keeping empty
segments, exactly as the Python split with an explicit separator does. -/
def splitOnChar (sep : Char) (cs : List Char) : List (List Char) :=
  splitOnCharAux sep cs []

/-- Embedding of the Python expression s.split() with no argument: the
maximal runs of non-whitespace characters, with empty tokens dropped. -/
def splitWsAux : List Char → List Char → List (List Char)
  | [], acc => if acc.isEmpty then [] else [acc.reverse]
  | c :: cs, acc =>
      if c.isWhitespace then
        if acc.isEmpty then splitWsAux cs []
        else acc.reverse :: splitWsAux cs []
      else splitWsAux cs (c :: acc)

/-- Whitespace tokenisation of a character list (Python split with no
separator argument). -/
def splitWs (cs : List Char) : List (List Char) :=
  splitWsAux cs []

/-- Embedding of the Python expression sep.join(words). -/
def joinSep (sep : List Char) : List (List Char) → List Char
  | [] => []
  | [w] => w
  | w :: ws => w ++ sep ++ joinSep sep ws

/-- Decimal digit characters of a natural number, zero padded on the left
to width four: the embedding of the Python format specifier 04d used for
clip identifiers. -/
def pad4 (n : ℕ) : List Char :=
  List.replicate (4 - (Nat.digits 10 n).length) '0'
    ++ ((Nat.digits 10 n).map Nat.digitChar).reverse

/-- The clip identifier string allocated from a counter value, embedding
the Python f-string clip_ followed by the zero-padded counter. -/
def mkClipId (n : ℕ) : String :=
  "clip_" ++ String.mk (pad4 n)

/-- Left inverse used to show that zero-padded decimal rendering is
injective: read the characters back as base-ten digits. -/
def decodePadded (cs : List Char) : ℕ :=
  Nat.ofDigits 10 (cs.reverse.map (fun c => c.toNat - 48))

lemma ofDigits_replicate_zero (k : ℕ) :
    Nat.ofDigits 10 (List.replicate k 0) = 0 := by
  induction k with
  | zero => rfl
  | succ k ih => simp [List.replicate_succ, Nat.ofDigits_cons, ih]

lemma decodePadded_pad4 (n : ℕ) : decodePadded (pad4 n) = n := by
  unfold decodePadded pad4
  rw [List.reverse_append, List.reverse_reverse, List.reverse_replicate]
  rw [List.map_append, List.map_map, List.map_replicate]
  have hdig : (Nat.digits 10 n).map ((fun c => c.toNat - 48) ∘ Nat.digitChar)
      = Nat.digits 10 n := by
    rw [show (Nat.digits 10 n).map ((fun c => c.toNat - 48) ∘ Nat.digitChar)
        = (Nat.digits 10 n).map id from
      List.map_congr_left (fun d hd => by
        have hlt : d < 10 := Nat.digits_lt_base (by norm_num) hd
        simp only [Function.comp_apply, id_eq]
        interval_cases d <;> rfl)]
    exact List.map_id _
  rw [hdig]
  have h0 : ('0'.toNat - 48 : ℕ) = 0 := rfl
  rw [h0, Nat.ofDigits_append, ofDigits_replicate_zero, Nat.ofDigits_digits]
  ring

lemma pad4_injective : Function.Injective pad4 := by
  intro m n h
  have := congrArg decodePadded h
  rwa [decodePadded_pad4, decodePadded_pad4] at this

lemma mkClipId_injective : Function.Injective mkClipId := by
  intro m n h
  apply pad4_injective
  have hdata := congrArg String.data h
  simp only [mkClipId, String.data_append] at hdata
  exact List.append_cancel_left hdata

/-! ## Processing layer
Embeddings of the functions in src/processing.py and of process_video in
src/main.py.  Durations are rationals; the random start offset drawn by
the clip extractor, the watermark verdict, the ffmpeg backend success and
the hash computation outcome are inputs supplied by a per-candidate
environment record; the global dedup set PROCESSED_HASHES becomes an
explicit list threaded through the functions, in file order. -/

/-- Embedding of the Python builtin min on two values: the first argument
is returned when the two compare equal. -/
def pymin (a b : ℚ) : ℚ := if a ≤ b then a else b

lemma pymin_le_left (a b : ℚ) : pymin a b ≤ a := by
  unfold pymin; split
  · exact le_refl a
  · exact le_of_not_le (by assumption)

lemma pymin_eq_left {a b : ℚ} (h : a ≤ b) : pymin a b = a := by
  unfold pymin; simp [h]

lemma pymin_eq_right {a b : ℚ} (h : b ≤ a) : pymin a b = b := by
  unfold pymin; split
  · exact le_antisymm (by assumption) h
  · rfl

lemma le_pymin {a b c : ℚ} (ha : c ≤ a) (hb : c ≤ b) : c ≤ pymin a b := by
  unfold pymin; split
  · exact ha
  · exact hb

/-- Embedding of the Python builtin str applied to the result of
calculate_video_hash: a string is unchanged, and the value None is
rendered as the four-character string None. -/
def pyStr : Option String → String
  | none => "None"
  | some s => s

/-- Embedding of is_duplicate in src/processing.py: a falsy string (the
empty string) is reported as a duplicate, otherwise membership in the
loaded hash set is tested exactly. -/
def is_duplicate (videoHashStr : String) (processedHashes : List String) : Bool :=
  if videoHashStr = "" then true
  else processedHashes.contains videoHashStr

/-- Embedding of save_hash in src/processing.py: the hash line is
appended to the durable file and added to the in-memory set, modelled as
one append-ordered list. -/
def save_hash (videoHash : String) (processedHashes : List String) : List String :=
  processedHashes ++ [videoHash]

/-- Embedding of trim_video in src/processing.py.  The probed total
duration of the input file, the random start offset drawn by
random.uniform, and the success of the ffmpeg stream-copy cut are inputs;
the result is the pair returned by the Python function. -/
def trim_video (totalDuration startOffset : ℚ) (extractOk : Bool)
    (clipDuration : ℚ) (outputPath : String) : Option String × ℚ :=
  if totalDuration < clipDuration then
    if totalDuration < 1 then (none, 0)
    else (some outputPath, totalDuration)
  else if extractOk then (some outputPath, clipDuration)
  else (none, 0)

/-- The arguments of the ffmpeg cut issued by trim_video when the source
is long enough: start position and length of the extracted segment.  The
offset is the value drawn by random.uniform; no cut is issued on the
short-source branches. -/
def trim_ffmpeg_call (totalDuration startOffset clipDuration : ℚ) :
    Option (ℚ × ℚ) :=
  if totalDuration < clipDuration then none
  else some (startOffset, clipDuration)

/-- Embedding of the keyword normalisation at the top of process_video in
src/main.py: split the keyword on whitespace, keep at most the first two
words, join them with underscores and lowercase the result. -/
def makeTag (keyword : String) : String :=
  String.mk ((joinSep ['_'] ((splitWs keyword.data).take 2)).map Char.toLower)

/-- Configuration values consumed by process_video, owned by the external
configuration loader. -/
structure Config where
  minClipDuration : ℚ
  clipDuration : ℚ
  detectWatermarks : Bool
  deriving DecidableEq

/-- Point at which an unexpected Python exception is injected into
process_video, if any: either while the duration and watermark gates run,
or after the clip identifier has been allocated and the counter
incremented (for example inside mkdir, the trim call or the hash file
write).  The surrounding try block of process_video catches it. -/
inductive ExnPoint where
  | noExn
  | duringGates
  | afterAlloc
  deriving DecidableEq

/-- The external world observed by process_video for one candidate video:
the metadata of the candidate and the outcomes of every side-effecting
call it makes. -/
structure PvEnv where
  keyword : String
  source : String
  /-- Result of get_video_duration on the raw file; probe failure
  yields zero. -/
  duration : ℚ
  /-- Verdict of detect_watermark on the raw file, when invoked. -/
  watermarkDetected : Bool
  /-- Whether the ffmpeg stream-copy cut inside trim_video succeeds. -/
  trimOk : Bool
  /-- The start offset drawn by random.uniform inside trim_video. -/
  offset : ℚ
  /-- Result of calculate_video_hash: a hex digest, or none when the
  hash computation raises and the except branch returns None. -/
  hashResult : Option String
  exn : ExnPoint
  deriving DecidableEq

/-- The clip record built by process_video on acceptance.  The first six
fields are the keys of the clip_meta dictionary in src/main.py; the
fingerprint field records the dedup key str(video_hash) that acceptance
writes into the dedup index through save_hash, which the specification
lists as part of the ClipRecord. -/
structure ClipMeta where
  id : String
  path : String
  tag : String
  duration : ℚ
  source : String
  keyword : String
  fingerprint : String
  deriving DecidableEq

/-- Embedding of process_video in src/main.py: duration gate, watermark
gate, clip identifier allocation, trim, dedup check, hash recording.
Returns the optional clip record, the updated clip counter and the
updated dedup set, mirroring the Python return value plus the mutation of
PROCESSED_HASHES. -/
def process_video (cfg : Config) (env : PvEnv) (hashes : List String)
    (counter : ℕ) : Option ClipMeta × ℕ × List String :=
  let keywordTag := makeTag env.keyword
  if env.exn = ExnPoint.duringGates then (none, counter, hashes)
  else if env.duration < cfg.minClipDuration then (none, counter, hashes)
  else if cfg.detectWatermarks && env.watermarkDetected then (none, counter, hashes)
  else
    let clipDuration := pymin env.duration cfg.clipDuration
    let clipId := mkClipId counter
    let counter' := counter + 1
    let clipPath := keywordTag ++ "/" ++ clipId ++ ".mp4"
    if env.exn = ExnPoint.afterAlloc then (none, counter', hashes)
    else
      match trim_video env.duration env.offset env.trimOk clipDuration clipPath with
      | (none, _) => (none, counter', hashes)
      | (some resultPath, actualDuration) =>
          let hashStr := pyStr env.hashResult
          if is_duplicate hashStr hashes then (none, counter', hashes)
          else
            (some { id := clipId, path := resultPath, tag := keywordTag,
                    duration := actualDuration, source := env.source,
                    keyword := env.keyword, fingerprint := hashStr },
             counter', save_hash hashStr hashes)

/-! ## Watermark detector
Embedding of detect_watermark in src/processing.py.  The OpenCV calls are
abstracted into an environment record whose fallible steps are values of
Except Unit: an error value models an unexpected Python exception raised
by that step, which the try block of the source function catches. -/

/-- The observable behaviour of the video backend during one run of
detect_watermark.  Steps that the source performs inside its try block
are Except-valued: an error is an unexpected exception at that step. -/
structure WatermarkEnv where
  /-- Whether cap.isOpened() returns true. -/
  opened : Bool
  /-- Frames per second reported by the capture. -/
  fps : ℚ
  /-- Frame count reported by the capture. -/
  frameCount : ℤ
  /-- Reading frame A: ok ret1, or an exception. -/
  readA : Except Unit Bool
  /-- Reading frame B: ok ret2, or an exception. -/
  readB : Except Unit Bool
  /-- Grayscale conversion of the two frames. -/
  cvtGray : Except Unit Unit
  /-- ORB descriptors of frame A: none embeds a None descriptor set,
  otherwise the number of descriptors. -/
  descA : Except Unit (Option ℕ)
  /-- ORB descriptors of frame B. -/
  descB : Except Unit (Option ℕ)
  /-- Number of mutual brute-force matches. -/
  matchCount : Except Unit ℕ
  /-- Whether findHomography returns a matrix rather than None. -/
  homographyFound : Except Unit Bool
  /-- Warping, absolute difference and thresholding of the frames. -/
  warpAndDiff : Except Unit Unit
  /-- The static pixel fraction computed from the static mask. -/
  staticFraction : Except Unit ℚ

/-- The body of detect_watermark from the fps read to the final threshold
comparison, exactly the contents of the try block of the source: ok b is
a normal return of b, error is an uncaught exception reaching the except
handler. -/
def detectBody (env : WatermarkEnv) (staticThreshold : ℚ) : Except Unit Bool := do
  if env.fps ≤ 0 ∨ (env.frameCount : ℚ) < 2 * env.fps then return false
  let retA ← env.readA
  let retB ← env.readB
  if !retA || !retB then return false
  let _ ← env.cvtGray
  let dA ← env.descA
  let dB ← env.descB
  match dA, dB with
  | some nA, some nB =>
      if nA < 10 ∨ nB < 10 then return false
      else do
        let matchNum ← env.matchCount
        if matchNum < 10 then return false
        else do
          let hOk ← env.homographyFound
          if !hOk then return false
          else do
            let _ ← env.warpAndDiff
            let staticFrac ← env.staticFraction
            return decide (staticThreshold < staticFrac)
  | _, _ => return false

/-- Embedding of detect_watermark in src/processing.py: a capture that
cannot be opened reports no watermark; otherwise the body runs and any
exception it raises is caught by the except handler, which reports a
watermark. -/
def detect_watermark (env : WatermarkEnv) (staticThreshold : ℚ) : Bool :=
  if !env.opened then false
  else
    match detectBody env staticThreshold with
    | Except.ok b => b
    | Except.error _ => true

/-! ## Filename metadata recovery
Embedding of the leftover-file scan of main in src/main.py: the stem of a
raw video filename is split on underscores and, when at least three
segments are present, the first segment is the source, the last is the
video id and the middle segments joined by spaces are the keyword. -/

/-- Metadata recovered from a raw video filename. -/
structure ParsedMeta where
  source : String
  keyword : String
  id : String
  deriving DecidableEq

/-- Embedding of the filename parsing in main: returns the recovered
metadata when the extension-stripped name has at least three
underscore-delimited segments, and nothing otherwise (the candidate is
skipped with a warning). -/
def parse_filename (stem : String) : Option ParsedMeta :=
  let parts := splitOnChar '_' stem.data
  if 3 ≤ parts.length then
    some { source := String.mk (parts.headD [])
           keyword := String.mk (joinSep [' '] ((parts.drop 1).dropLast))
           id := String.mk (parts.getLastD []) }
  else none

/-! ## Orchestrator
Embedding of the per-candidate processing steps of the two phases of main
in src/main.py: the replay of leftover raw videos and the processing of
freshly acquired candidates.  The persisted progress files and in-memory
mirrors become one explicit state record; each loop iteration is a state
transition, and a run is a left fold over the candidate list actually
processed (an early break corresponds to folding over a prefix). -/

/-- One candidate video handed to the per-video pipeline: the id from its
metadata together with the external world process_video observes for
it. -/
structure Candidate where
  vid : String
  env : PvEnv
  deriving DecidableEq

/-- The progress key written for a candidate, the Python f-string of
source and id joined by an underscore. -/
def videoKey (v : Candidate) : String :=
  v.env.source ++ "_" ++ v.vid

/-- The mutable state of the orchestrator loops: the processed-video set,
the clip counter, the running count of clips in the dataset, the list of
accepted clip records and the dedup set. -/
structure LoopState where
  processedVideos : List String
  clipCounter : ℕ
  existingClips : ℕ
  finalClips : List ClipMeta
  hashes : List String
  deriving DecidableEq

/-- The state at the start of a run: clips list empty, counters and the
persisted sets loaded from durable storage. -/
def initState (hashes : List String) (counter existing : ℕ)
    (processed : List String) : LoopState :=
  { processedVideos := processed, clipCounter := counter,
    existingClips := existing, finalClips := [], hashes := hashes }

/-- One iteration of the replay loop over existing raw videos in main:
skip when the id is already recorded and the clip target is met,
otherwise run process_video, persist the counter, and on acceptance
append the clip record, bump the clip count and record the video id.  A
rejected id is not recorded. -/
def replayStep (cfg : Config) (target : ℕ) (s : LoopState) (v : Candidate) :
    LoopState :=
  if videoKey v ∈ s.processedVideos ∧ target ≤ s.existingClips then s
  else
    match process_video cfg v.env s.hashes s.clipCounter with
    | (none, c', hs') => { s with clipCounter := c', hashes := hs' }
    | (some m, c', hs') =>
        { processedVideos := s.processedVideos ++ [videoKey v]
          clipCounter := c'
          existingClips := s.existingClips + 1
          finalClips := s.finalClips ++ [m]
          hashes := hs' }

/-- One iteration of the freshly-downloaded-candidate loop in main: the
same pipeline as the replay step, except that the video id is recorded
after processing whether or not the candidate was accepted. -/
def acquireStep (cfg : Config) (target : ℕ) (s : LoopState) (v : Candidate) :
    LoopState :=
  if videoKey v ∈ s.processedVideos ∧ target ≤ s.existingClips then s
  else
    match process_video cfg v.env s.hashes s.clipCounter with
    | (none, c', hs') =>
        { s with clipCounter := c', hashes := hs',
                 processedVideos := s.processedVideos ++ [videoKey v] }
    | (some m, c', hs') =>
        { processedVideos := s.processedVideos ++ [videoKey v]
          clipCounter := c'
          existingClips := s.existingClips + 1
          finalClips := s.finalClips ++ [m]
          hashes := hs' }

/-- A whole run of the curation pipeline over the candidates actually
processed: first the replay phase, then the acquisition phase. -/
def runPipeline (cfg : Config) (target : ℕ)
    (replayList acquireList : List Candidate) (s : LoopState) : LoopState :=
  acquireList.foldl (acquireStep cfg target)
    (replayList.foldl (replayStep cfg target) s)

/-- Embedding of the margin recomputation expression in main, the Python
expression int(target_video_count * 1.5) on a nonnegative count: floats
are exact here and int truncates, so the result is three halves rounded
down. -/
def updateTargetVideoCount (t : ℕ) : ℕ := 3 * t / 2

/-- The guarded recomputation in the keyword loop of main: when the
number of downloaded videos has reached the video target while the clip
target is unmet, the video target is recomputed. -/
def maybeRaiseTarget (totalVideos targetVideo clips targetClips : ℕ) : ℕ :=
  if targetVideo ≤ totalVideos ∧ clips < targetClips then
    updateTargetVideoCount targetVideo
  else targetVideo

/-! ## Helper lemmas about the per-video pipeline -/

lemma trim_video_of_pymin (d ofs : ℚ) (ok : Bool) (b : ℚ) (p : String) :
    trim_video d ofs ok (pymin d b) p =
      if ok then (some p, pymin d b) else (none, 0) := by
  unfold trim_video
  rw [if_neg (not_lt.mpr (pymin_le_left d b))]

lemma pv_spec (cfg : Config) (env : PvEnv) (hs : List String) (c : ℕ) :
    c ≤ (process_video cfg env hs c).2.1 ∧
    ((process_video cfg env hs c).1 = none → (process_video cfg env hs c).2.2 = hs) ∧
    (∀ m, (process_video cfg env hs c).1 = some m →
      (process_video cfg env hs c).2.1 = c + 1 ∧
      (process_video cfg env hs c).2.2 = hs ++ [m.fingerprint] ∧
      m.fingerprint ∉ hs ∧
      m.id = mkClipId c ∧
      m.tag = makeTag env.keyword ∧
      m.keyword = env.keyword ∧
      m.source = env.source ∧
      m.duration = pymin env.duration cfg.clipDuration ∧
      cfg.minClipDuration ≤ env.duration ∧
      m.path = makeTag env.keyword ++ "/" ++ mkClipId c ++ ".mp4") := by
  simp only [process_video, trim_video_of_pymin]
  by_cases h1 : env.exn = ExnPoint.duringGates
  · simp [h1]
  rw [if_neg h1]
  by_cases h2 : env.duration < cfg.minClipDuration
  · simp [h2]
  rw [if_neg h2]
  by_cases h3 : cfg.detectWatermarks && env.watermarkDetected
  · simp [h3]
  rw [if_neg (by simp [h3])]
  by_cases h4 : env.exn = ExnPoint.afterAlloc
  · simp [h4]
  rw [if_neg h4]
  cases ht : env.trimOk with
  | false => simp
  | true =>
    simp only [if_true]
    by_cases h5 : is_duplicate (pyStr env.hashResult) hs
    · simp [h5]
    rw [if_neg h5]
    refine ⟨by simp, by simp, ?_⟩
    intro m hm
    injection hm with hm
    subst hm
    refine ⟨rfl, rfl, ?_, rfl, rfl, rfl, rfl, rfl, not_lt.mp h2, rfl⟩
    intro hmem
    unfold is_duplicate at h5
    split at h5
    · exact h5 rfl
    · exact h5 (List.elem_iff.mpr hmem)

/-! ## Run-level invariant -/

/-- The invariant the orchestrator maintains across iterations: every
accepted clip has its fingerprint in the dedup set, no two accepted clips
share a fingerprint, every accepted clip carries an identifier allocated
from an earlier counter value, and no two accepted clips share an
identifier. -/
def GoodState (s : LoopState) : Prop :=
  (∀ m ∈ s.finalClips, m.fingerprint ∈ s.hashes) ∧
  (s.finalClips.map ClipMeta.fingerprint).Nodup ∧
  (∀ m ∈ s.finalClips, ∃ k, k < s.clipCounter ∧ m.id = mkClipId k) ∧
  (s.finalClips.map ClipMeta.id).Nodup

lemma goodState_init (hashes : List String) (counter existing : ℕ)
    (processed : List String) :
    GoodState (initState hashes counter existing processed) := by
  refine ⟨?_, ?_, ?_, ?_⟩ <;> simp [initState]

lemma goodState_accept (s : LoopState) (m : ClipMeta) (hs' : List String)
    (pvs : List String)
    (h : GoodState s)
    (hhs : hs' = s.hashes ++ [m.fingerprint])
    (hnotmem : m.fingerprint ∉ s.hashes)
    (hid : m.id = mkClipId s.clipCounter) :
    GoodState { processedVideos := pvs, clipCounter := s.clipCounter + 1,
                existingClips := s.existingClips + 1,
                finalClips := s.finalClips ++ [m], hashes := hs' } := by
  obtain ⟨h1, h2, h3, h4⟩ := h
  subst hhs
  refine ⟨?_, ?_, ?_, ?_⟩
  · intro m' hm'
    rcases List.mem_append.mp hm' with hm' | hm'
    · exact List.mem_append_left _ (h1 m' hm')
    · simp at hm'
      subst hm'
      simp
  · rw [List.map_append]
    simp only [List.map_cons, List.map_nil]
    rw [List.nodup_append]
    refine ⟨h2, List.nodup_singleton _, ?_⟩
    intro fp hfp hfp1
    simp at hfp1
    subst hfp1
    rcases List.mem_map.mp hfp with ⟨m', hm', hfpm⟩
    exact hnotmem (hfpm ▸ h1 m' hm')
  · intro m' hm'
    rcases List.mem_append.mp hm' with hm' | hm'
    · obtain ⟨k, hk, hkid⟩ := h3 m' hm'
      exact ⟨k, Nat.lt_succ_of_lt hk, hkid⟩
    · simp at hm'
      subst hm'
      exact ⟨s.clipCounter, Nat.lt_succ_self _, hid⟩
  · rw [List.map_append]
    simp only [List.map_cons, List.map_nil]
    rw [List.nodup_append]
    refine ⟨h4, List.nodup_singleton _, ?_⟩
    intro i hi hi1
    simp at hi1
    subst hi1
    rcases List.mem_map.mp hi with ⟨m', hm', him⟩
    obtain ⟨k, hk, hkid⟩ := h3 m' hm'
    rw [hkid] at him
    rw [hid] at him
    exact absurd (mkClipId_injective him) (Nat.ne_of_lt hk)

lemma goodState_reject (s : LoopState) (c' : ℕ) (pvs : List String)
    (h : GoodState s) (hc : s.clipCounter ≤ c') :
    GoodState { processedVideos := pvs, clipCounter := c',
                existingClips := s.existingClips,
                finalClips := s.finalClips, hashes := s.hashes } := by
  obtain ⟨h1, h2, h3, h4⟩ := h
  refine ⟨h1, h2, ?_, h4⟩
  intro m hm
  obtain ⟨k, hk, hkid⟩ := h3 m hm
  exact ⟨k, lt_of_lt_of_le hk hc, hkid⟩

lemma replayStep_good (cfg : Config) (t : ℕ) (s : LoopState) (v : Candidate)
    (h : GoodState s) : GoodState (replayStep cfg t s v) := by
  unfold replayStep
  split
  · exact h
  obtain ⟨hc, hrej, hacc⟩ := pv_spec cfg v.env s.hashes s.clipCounter
  rcases hpv : process_video cfg v.env s.hashes s.clipCounter with ⟨r, c', hs'⟩
  rw [hpv] at hc hrej hacc
  simp only at hc hrej hacc
  cases r with
  | none =>
      have hhs : hs' = s.hashes := hrej rfl
      subst hhs
      exact goodState_reject s c' s.processedVideos h hc
  | some m =>
      obtain ⟨hc1, hhs, hnotmem, hid, _⟩ := hacc m rfl
      subst hc1
      exact goodState_accept s m hs' _ h hhs hnotmem hid

lemma acquireStep_good (cfg : Config) (t : ℕ) (s : LoopState) (v : Candidate)
    (h : GoodState s) : GoodState (acquireStep cfg t s v) := by
  unfold acquireStep
  split
  · exact h
  obtain ⟨hc, hrej, hacc⟩ := pv_spec cfg v.env s.hashes s.clipCounter
  rcases hpv : process_video cfg v.env s.hashes s.clipCounter with ⟨r, c', hs'⟩
  rw [hpv] at hc hrej hacc
  simp only at hc hrej hacc
  cases r with
  | none =>
      have hhs : hs' = s.hashes := hrej rfl
      subst hhs
      exact goodState_reject s c' _ h hc
  | some m =>
      obtain ⟨hc1, hhs, hnotmem, hid, _⟩ := hacc m rfl
      subst hc1
      exact goodState_accept s m hs' _ h hhs hnotmem hid

lemma replayStep_counter_le (cfg : Config) (t : ℕ) (s : LoopState)
    (v : Candidate) : s.clipCounter ≤ (replayStep cfg t s v).clipCounter := by
  unfold replayStep
  split
  · exact le_refl _
  obtain ⟨hc, -, -⟩ := pv_spec cfg v.env s.hashes s.clipCounter
  rcases hpv : process_video cfg v.env s.hashes s.clipCounter with ⟨r, c', hs'⟩
  rw [hpv] at hc
  simp only at hc
  cases r <;> exact hc

lemma acquireStep_counter_le (cfg : Config) (t : ℕ) (s : LoopState)
    (v : Candidate) : s.clipCounter ≤ (acquireStep cfg t s v).clipCounter := by
  unfold acquireStep
  split
  · exact le_refl _
  obtain ⟨hc, -, -⟩ := pv_spec cfg v.env s.hashes s.clipCounter
  rcases hpv : process_video cfg v.env s.hashes s.clipCounter with ⟨r, c', hs'⟩
  rw [hpv] at hc
  simp only at hc
  cases r <;> exact hc

lemma foldl_preserve {α β : Type _} (P : α → Prop) (f : α → β → α)
    (hf : ∀ s v, P s → P (f s v)) :
    ∀ (l : List β) (s : α), P s → P (List.foldl f s l) := by
  intro l
  induction l with
  | nil => intro s hs; exact hs
  | cons v l ih => intro s hs; exact ih _ (hf s v hs)

lemma runPipeline_good (cfg : Config) (t : ℕ) (rl al : List Candidate)
    (s : LoopState) (h : GoodState s) : GoodState (runPipeline cfg t rl al s) := by
  unfold runPipeline
  exact foldl_preserve GoodState _ (acquireStep_good cfg t) al _
    (foldl_preserve GoodState _ (replayStep_good cfg t) rl s h)

lemma runPipeline_counter_le (cfg : Config) (t : ℕ) (rl al : List Candidate)
    (s : LoopState) : s.clipCounter ≤ (runPipeline cfg t rl al s).clipCounter := by
  unfold runPipeline
  have hrepl := foldl_preserve (fun s' => s.clipCounter ≤ LoopState.clipCounter s')
    (replayStep cfg t)
    (fun s' v h' => le_trans h' (replayStep_counter_le cfg t s' v)) rl s (le_refl _)
  exact foldl_preserve (fun s' => s.clipCounter ≤ LoopState.clipCounter s')
    (acquireStep cfg t)
    (fun s' v h' => le_trans h' (acquireStep_counter_le cfg t s' v)) al _ hrepl

/-! ## Concrete instances used by witnesses and counterexamples -/

/-- A configuration with the defaults the source falls back to: minimum
clip duration two seconds, configured clip length five seconds, watermark
detection enabled. -/
def cfgEx : Config :=
  { minClipDuration := 2, clipDuration := 5, detectWatermarks := true }

/-- A candidate that passes every gate: ten-second source, no watermark,
successful trim, successful hash computation. -/
def envAcc : PvEnv :=
  { keyword := "Epic Drone Shot", source := "youtube", duration := 10,
    watermarkDetected := false, trimOk := true, offset := 3,
    hashResult := some "abc123", exn := ExnPoint.noExn }

/-- The clip record process_video builds for envAcc under cfgEx with
counter zero and an empty dedup set. -/
def mAcc : ClipMeta :=
  { id := mkClipId 0,
    path := makeTag "Epic Drone Shot" ++ "/" ++ mkClipId 0 ++ ".mp4",
    tag := makeTag "Epic Drone Shot", duration := 5, source := "youtube",
    keyword := "Epic Drone Shot", fingerprint := "abc123" }

/-- The accepting candidate with a failed hash computation: the except
branch of calculate_video_hash returns None. -/
def envNoHash : PvEnv := { envAcc with hashResult := none }

/-- The clip record accepted for envNoHash: its recorded fingerprint is
the Python rendering of None. -/
def mNoHash : ClipMeta := { mAcc with fingerprint := "None" }

/-- A configuration whose minimum clip duration exceeds the configured
clip length. -/
def cfgShort : Config :=
  { minClipDuration := 10, clipDuration := 5, detectWatermarks := false }

/-- A twelve-second candidate, longer than both thresholds of
cfgShort. -/
def envLong : PvEnv := { envAcc with duration := 12 }

/-- A candidate rejected by the duration gate: the probe reports zero
seconds. -/
def envRejected : PvEnv := { envAcc with duration := 0 }

/-- The rejected candidate as seen by the orchestrator loops. -/
def candRejected : Candidate := { vid := "v1", env := envRejected }

/-- The loop state at the very start of a fresh run. -/
def s0c : LoopState := initState [] 0 0 []

/-- A watermark-detector environment whose step one gates pass and whose
first frame read raises an unexpected exception. -/
def envWmErr : WatermarkEnv :=
  { opened := true, fps := 30, frameCount := 300,
    readA := Except.error (), readB := Except.ok true,
    cvtGray := Except.ok (), descA := Except.ok (some 50),
    descB := Except.ok (some 50), matchCount := Except.ok 40,
    homographyFound := Except.ok true, warpAndDiff := Except.ok (),
    staticFraction := Except.ok (1/2) }

/-! ## Claims -/

/-- C1: no two accepted clip records of a run share a fingerprint.  A
clip is accepted only when its fingerprint is absent from the dedup set
at the moment of the duplicate check, the fingerprint is appended to the
set immediately on acceptance, and consequently over any run of the
pipeline (replay phase followed by acquisition phase, starting from an
empty accepted list) the fingerprints of the accepted clip records are
pairwise distinct. -/
theorem accepted_fingerprints_unique :
    (∀ cfg env hs c m, (process_video cfg env hs c).1 = some m →
      m.fingerprint ∉ hs ∧
      (process_video cfg env hs c).2.2 = hs ++ [m.fingerprint]) ∧
    (∀ cfg t rl al hs c e pv,
      ((runPipeline cfg t rl al (initState hs c e pv)).finalClips.map
        ClipMeta.fingerprint).Nodup) := by
  constructor
  · intro cfg env hs c m hm
    obtain ⟨-, -, hacc⟩ := pv_spec cfg env hs c
    obtain ⟨-, hhs, hnm, -⟩ := hacc m hm
    exact ⟨hnm, hhs⟩
  · intro cfg t rl al hs c e pv
    exact (runPipeline_good cfg t rl al _ (goodState_init hs c e pv)).2.1

/-- Witness for C1: the concrete accepting run has a fresh fingerprint
and appends it to the dedup set. -/
theorem accepted_fingerprints_unique_witness :
    mAcc.fingerprint ∉ ([] : List String) ∧
    (process_video cfgEx envAcc [] 0).2.2 = [] ++ [mAcc.fingerprint] :=
  accepted_fingerprints_unique.1 cfgEx envAcc [] 0 mAcc rfl

/-- C2: the claim that a candidate whose hash computation fails is always
rejected as a duplicate does not hold of the pipeline.  The guard inside
is_duplicate does treat a falsy fingerprint as a duplicate, but
process_video wraps the hash in the Python builtin str before the check,
so a failed hash arrives as the truthy four-character string None and the
candidate is accepted whenever that string is not yet in the dedup set:
evaluated at the failing input, the pipeline accepts the clip and records
the fingerprint None. -/
theorem failed_hash_fingerprint_accepted :
    is_duplicate "" [] = true ∧
    pyStr none = "None" ∧
    is_duplicate (pyStr none) [] = false ∧
    (process_video cfgEx envNoHash [] 0).1 = some mNoHash :=
  ⟨rfl, rfl, rfl, rfl⟩

/-- C3 counterexample: with a configured clip length of five seconds and
a minimum clip duration of ten seconds, a twelve-second source passes the
duration gate and is accepted with a recorded duration of five seconds,
which is strictly below the minimum clip duration; the claim that every
accepted clip record has duration at least min_clip_duration is false as
stated. -/
theorem accepted_below_min_duration_counterexample :
    (process_video cfgShort envLong [] 0).1 = some mAcc ∧
    mAcc.duration < cfgShort.minClipDuration :=
  ⟨rfl, by decide⟩

/-- C3 amended: provided the configured clip length is at least
min_clip_duration, every accepted clip record has duration at least
min_clip_duration; when the probed source duration is at least the
configured clip length the recorded duration equals the configured clip
length, and when the source is shorter the recorded duration equals the
probed source duration and is strictly below the configured clip
length. -/
theorem accepted_duration_bounds (cfg : Config) (env : PvEnv)
    (hs : List String) (c : ℕ) (m : ClipMeta)
    (hm : (process_video cfg env hs c).1 = some m) :
    (cfg.minClipDuration ≤ cfg.clipDuration →
      cfg.minClipDuration ≤ m.duration) ∧
    (cfg.clipDuration ≤ env.duration → m.duration = cfg.clipDuration) ∧
    (env.duration < cfg.clipDuration →
      m.duration = env.duration ∧ m.duration < cfg.clipDuration) := by
  obtain ⟨-, -, hacc⟩ := pv_spec cfg env hs c
  obtain ⟨-, -, -, -, -, -, -, hdur, hgate, -⟩ := hacc m hm
  refine ⟨?_, ?_, ?_⟩
  · intro hcfg
    rw [hdur]
    exact le_pymin hgate hcfg
  · intro hle
    rw [hdur]
    exact pymin_eq_right hle
  · intro hlt
    rw [hdur, pymin_eq_left (le_of_lt hlt)]
    exact ⟨rfl, hlt⟩

/-- Witness for the amended C3 at the concrete accepting run. -/
theorem accepted_duration_bounds_witness :
    (cfgEx.minClipDuration ≤ cfgEx.clipDuration →
      cfgEx.minClipDuration ≤ mAcc.duration) ∧
    (cfgEx.clipDuration ≤ envAcc.duration → mAcc.duration = cfgEx.clipDuration) ∧
    (envAcc.duration < cfgEx.clipDuration →
      mAcc.duration = envAcc.duration ∧ mAcc.duration < cfgEx.clipDuration) :=
  accepted_duration_bounds cfgEx envAcc [] 0 mAcc rfl

/-- C4: when the capture opens and an unexpected exception is raised
anywhere in the body of detect_watermark, that is, during frame sampling,
grayscale conversion, feature detection, matching, homography estimation,
warping, differencing or thresholding, the except handler reports a
watermark, so the function returns true rather than false or an
exception. -/
theorem watermark_failure_fail_closed (env : WatermarkEnv) (th : ℚ) (u : Unit)
    (hopen : env.opened = true)
    (herr : detectBody env th = Except.error u) :
    detect_watermark env th = true := by
  unfold detect_watermark
  rw [hopen]
  simp [herr]

/-- Witness for C4: a concrete environment whose first frame read raises
is reported as watermarked. -/
theorem watermark_failure_fail_closed_witness :
    envWmErr.opened = true ∧
    detectBody envWmErr (1/20) = Except.error () ∧
    detect_watermark envWmErr (1/20) = true :=
  ⟨rfl, by unfold detectBody envWmErr; rw [if_neg (by norm_num)]; rfl,
   watermark_failure_fail_closed envWmErr (1/20) ()
     rfl (by unfold detectBody envWmErr; rw [if_neg (by norm_num)]; rfl)⟩

/-- C5: the return value of trim_video.  When the probed total duration
is below the target and below one second the result is none with zero
duration; when it is below the target but at least one second the whole
file is renamed into place and the true total duration is returned; and
otherwise the ffmpeg cut of exactly the target duration is issued at the
drawn offset, which the uniform draw keeps inside the closed interval
from zero to total minus target, returning the output path with the
target duration on success and none with zero on backend failure. -/
theorem trim_video_contract (total r : ℚ) (ok : Bool) (target : ℚ)
    (out : String)
    (hr : target ≤ total → 0 ≤ r ∧ r ≤ total - target) :
    (total < target → total < 1 →
      trim_video total r ok target out = (none, 0)) ∧
    (total < target → 1 ≤ total →
      trim_video total r ok target out = (some out, total)) ∧
    (target ≤ total →
      trim_video total r ok target out =
        (if ok then (some out, target) else (none, 0)) ∧
      trim_ffmpeg_call total r target = some (r, target) ∧
      0 ≤ r ∧ r ≤ total - target) := by
  unfold trim_video trim_ffmpeg_call
  refine ⟨?_, ?_, ?_⟩
  · intro h1 h2
    rw [if_pos h1, if_pos h2]
  · intro h1 h2
    rw [if_pos h1, if_neg (not_lt.mpr h2)]
  · intro h1
    obtain ⟨hr0, hr1⟩ := hr h1
    rw [if_neg (not_lt.mpr h1), if_neg (not_lt.mpr h1)]
    exact ⟨rfl, rfl, hr0, hr1⟩

/-- Witness for C5: a ten-second source cut to five seconds at offset
three. -/
theorem trim_video_contract_witness :
    ((5 : ℚ) ≤ 10 → (0 : ℚ) ≤ 3 ∧ (3 : ℚ) ≤ 10 - 5) ∧
    ((5 : ℚ) ≤ 10 →
      trim_video 10 3 true 5 "out.mp4" =
        (if true then (some "out.mp4", (5 : ℚ)) else (none, 0)) ∧
      trim_ffmpeg_call 10 3 5 = some (3, 5) ∧
      (0 : ℚ) ≤ 3 ∧ (3 : ℚ) ≤ 10 - 5) :=
  ⟨by norm_num,
   (trim_video_contract 10 3 true 5 "out.mp4" (by norm_num)).2.2⟩

/-- C6 counterexample: the two phases do not persist in the same way.  A
candidate rejected by the duration gate leaves the replay-phase
processed-video set unchanged, but the acquisition-phase iteration
records its id even though no clip was created, so the claim that both
phases persist the id exactly when the candidate was accepted is false as
stated. -/
theorem acquire_records_rejected_counterexample :
    (process_video cfgEx envRejected [] 0).1 = none ∧
    (replayStep cfgEx 10 s0c candRejected).processedVideos = [] ∧
    (acquireStep cfgEx 10 s0c candRejected).processedVideos = ["youtube_v1"] := by
  refine ⟨rfl, ?_, ?_⟩ <;> rfl

/-- C6 amended: for every non-skipped candidate, the replay phase
persists the video id exactly when the candidate was accepted, while the
acquisition phase persists the id unconditionally after processing,
accepted or not; only replay-phase rejections remain eligible for a
retry, and the two phases do not behave identically. -/
theorem phase_persistence_behaviour (cfg : Config) (t : ℕ) (s : LoopState)
    (v : Candidate)
    (hskip : ¬(videoKey v ∈ s.processedVideos ∧ t ≤ s.existingClips)) :
    ((replayStep cfg t s v).processedVideos =
      if ((process_video cfg v.env s.hashes s.clipCounter).1).isSome = true
      then s.processedVideos ++ [videoKey v] else s.processedVideos) ∧
    (acquireStep cfg t s v).processedVideos =
      s.processedVideos ++ [videoKey v] := by
  unfold replayStep acquireStep
  rw [if_neg hskip, if_neg hskip]
  rcases hpv : process_video cfg v.env s.hashes s.clipCounter with ⟨r, c', hs'⟩
  cases r <;> simp

/-- Witness for the amended C6 at the concrete rejected candidate. -/
theorem phase_persistence_behaviour_witness :
    ¬(videoKey candRejected ∈ s0c.processedVideos ∧ 10 ≤ s0c.existingClips) ∧
    ((replayStep cfgEx 10 s0c candRejected).processedVideos =
      if ((process_video cfgEx candRejected.env s0c.hashes
            s0c.clipCounter).1).isSome = true
      then s0c.processedVideos ++ [videoKey candRejected]
      else s0c.processedVideos) ∧
    (acquireStep cfgEx 10 s0c candRejected).processedVideos =
      s0c.processedVideos ++ [videoKey candRejected] :=
  ⟨by decide,
   (phase_persistence_behaviour cfgEx 10 s0c candRejected (by decide)).1,
   (phase_persistence_behaviour cfgEx 10 s0c candRejected (by decide)).2⟩

/-- C7 counterexample: a recomputation of the video target is not always
strictly increasing.  With a video target of one, one downloaded video
and an unmet clip target the recomputation is triggered, yet the Python
expression int(1 * 1.5) evaluates back to one, so the new value equals
the old one. -/
theorem target_raise_not_strict_counterexample :
    (1 ≤ 1 ∧ 0 < 5) ∧ updateTargetVideoCount 1 = 1 ∧
    maybeRaiseTarget 1 1 0 5 = 1 := by
  decide

/-- C7 amended: the recomputation is triggered exactly when the running
video count has reached the video target while the clip target is unmet;
it never lowers the video target, and it is strictly increasing whenever
the old target is at least two (for targets zero and one the truncated
multiplication by three halves returns the old value unchanged). -/
theorem target_raise_monotone (totalVideos targetVideo clips targetClips : ℕ) :
    targetVideo ≤ maybeRaiseTarget totalVideos targetVideo clips targetClips ∧
    (targetVideo ≤ totalVideos → clips < targetClips → 2 ≤ targetVideo →
      targetVideo < maybeRaiseTarget totalVideos targetVideo clips targetClips) := by
  unfold maybeRaiseTarget updateTargetVideoCount
  constructor
  · split <;> omega
  · intro h1 h2 h3
    rw [if_pos ⟨h1, h2⟩]
    omega

/-- Witness for the amended C7: a target of four raised under a triggered
recomputation. -/
theorem target_raise_monotone_witness :
    4 ≤ maybeRaiseTarget 10 4 0 5 ∧ 4 < maybeRaiseTarget 10 4 0 5 :=
  ⟨(target_raise_monotone 10 4 0 5).1,
   (target_raise_monotone 10 4 0 5).2 (by decide) (by decide) (by decide)⟩

/-- C8: the clip counter never decreases through a call of process_video,
including every rejection path and the injected-exception paths; a
candidate that allocates an identifier receives exactly the clip id built
from the counter value at allocation time, after which the counter is
incremented; and over a whole run started with an empty accepted list the
counter is monotone and the identifiers of the accepted clip records are
pairwise distinct. -/
theorem clip_counter_monotone_ids_unique :
    (∀ cfg env hs c, c ≤ (process_video cfg env hs c).2.1) ∧
    (∀ cfg env hs c m, (process_video cfg env hs c).1 = some m →
      m.id = mkClipId c ∧ (process_video cfg env hs c).2.1 = c + 1) ∧
    (∀ cfg t rl al hs c e pv,
      c ≤ (runPipeline cfg t rl al (initState hs c e pv)).clipCounter ∧
      ((runPipeline cfg t rl al (initState hs c e pv)).finalClips.map
        ClipMeta.id).Nodup) := by
  refine ⟨?_, ?_, ?_⟩
  · intro cfg env hs c
    exact (pv_spec cfg env hs c).1
  · intro cfg env hs c m hm
    obtain ⟨-, -, hacc⟩ := pv_spec cfg env hs c
    obtain ⟨hc1, -, -, hid, -⟩ := hacc m hm
    exact ⟨hid, hc1⟩
  · intro cfg t rl al hs c e pv
    refine ⟨?_, (runPipeline_good cfg t rl al _ (goodState_init hs c e pv)).2.2.2⟩
    exact runPipeline_counter_le cfg t rl al (initState hs c e pv)

/-- Witness for C8: the concrete accepting run allocates the identifier
built from counter zero and leaves the counter incremented. -/
theorem clip_counter_monotone_ids_unique_witness :
    mAcc.id = mkClipId 0 ∧ (process_video cfgEx envAcc [] 0).2.1 = 0 + 1 :=
  clip_counter_monotone_ids_unique.2.1 cfgEx envAcc [] 0 mAcc rfl

/-- C9: metadata recovery from a leftover raw filename succeeds exactly
when the extension-stripped name has at least three underscore-delimited
segments, and in that case the recovered source is the first segment, the
recovered id is the last segment and the recovered keyword is the middle
segments joined by single spaces. -/
theorem parse_filename_contract (stem : String) :
    ((splitOnChar '_' stem.data).length < 3 → parse_filename stem = none) ∧
    (3 ≤ (splitOnChar '_' stem.data).length →
      parse_filename stem = some
        { source := String.mk ((splitOnChar '_' stem.data).headD [])
          keyword := String.mk
            (joinSep [' '] (((splitOnChar '_' stem.data).drop 1).dropLast))
          id := String.mk ((splitOnChar '_' stem.data).getLastD []) }) := by
  unfold parse_filename
  constructor
  · intro h
    rw [if_neg (by omega)]
  · intro h
    rw [if_pos h]

/-- Witness for C9: a concrete four-segment filename stem is parsed into
its source, two-word keyword and id. -/
theorem parse_filename_contract_witness :
    3 ≤ (splitOnChar '_' ("youtube_epic_drone_v1" : String).data).length ∧
    parse_filename "youtube_epic_drone_v1" =
      some { source := "youtube", keyword := "epic drone", id := "v1" } :=
  ⟨by decide,
   ((parse_filename_contract "youtube_epic_drone_v1").2 (by decide)).trans
     (by decide)⟩

/-- C10: the tag of a clip record is a deterministic function of the
first at most two whitespace-separated words of the keyword, namely those
words joined by underscores and lowercased, so two keywords with the same
first two words receive the same tag; every accepted clip record carries
that tag, keeps the full original keyword in its keyword field, and its
output path places the clip file inside the subdirectory named by the
tag. -/
theorem tag_normalisation_contract :
    (∀ k1 k2 : String, (splitWs k1.data).take 2 = (splitWs k2.data).take 2 →
      makeTag k1 = makeTag k2) ∧
    (∀ cfg env hs c m, (process_video cfg env hs c).1 = some m →
      m.tag = makeTag env.keyword ∧ m.keyword = env.keyword ∧
      m.path = makeTag env.keyword ++ "/" ++ m.id ++ ".mp4") := by
  constructor
  · intro k1 k2 h
    unfold makeTag
    rw [h]
  · intro cfg env hs c m hm
    obtain ⟨-, -, hacc⟩ := pv_spec cfg env hs c
    obtain ⟨-, -, -, hid, htag, hkw, -, -, -, hpath⟩ := hacc m hm
    refine ⟨htag, hkw, ?_⟩
    rw [hpath, hid]

/-- Witness for C10: two keywords sharing their first two words receive
the same tag, and the concrete accepted record carries the tag of its
keyword. -/
theorem tag_normalisation_contract_witness :
    (splitWs ("Epic Drone Shot" : String).data).take 2 =
      (splitWs ("Epic Drone Footage 4k" : String).data).take 2 ∧
    makeTag "Epic Drone Shot" = makeTag "Epic Drone Footage 4k" ∧
    mAcc.tag = makeTag envAcc.keyword :=
  ⟨by decide,
   tag_normalisation_contract.1 "Epic Drone Shot" "Epic Drone Footage 4k"
     (by decide),
   (tag_normalisation_contract.2 cfgEx envAcc [] 0 mAcc rfl).1⟩

end YL
